import Mathlib

/-!
# Verification of the capacitor-duckdb native bridges

This development gives a shallow embedding of the two near-identical native
bridge implementations of the repository:

* `src/android/src/main/cpp/duckdb_jni.cpp` (JNI entry points
  `Java_ph_com_regalado_capacitor_duckdb_DuckDBNative_*`), and
* `src/ios/Sources/CapacitorDuckDbPlugin/duckdb_ios.cpp` (C entry points
  `duckdb_ios_*`),

and proves the specified properties of the JSON value encoder, the result
serializers, the parameter binding store and the error channels.

Modelling conventions, used consistently below:

* The embedded database engine is the spec's declared black box.  Every entry
  point that consults the engine takes the engine's response for that call as
  an explicit argument (`EngineCall`), so that an entry point's output is a
  pure function of its inputs and the engine's answer.
* Opaque handles (`jlong` pointers / `void*`) are modelled as `Option`
  values: `none` is the null / zero handle, `some` a live handle carrying
  exactly the state the bridge itself manages (for prepared statements, the
  binding vector).
* `std::string` payloads produced by the serializers are modelled as Lean
  `String`s; for the byte-exact escaping claim the escape function is also
  modelled at the byte level (`List Nat`, each element `< 256`), matching the
  C++ `char` loop.
* 32-bit machine arithmetic is modelled with `wrap32` wherever the Android
  source narrows to `int`: the 0-based conversion `int idx = index - 1`
  (computed *before* range-checking, so `INT_MIN` wraps), and the guard
  `idx >= (int)wrapper->bindings.size()`, whose `(int)` cast of the vector
  size wraps negative once the store reaches `2^31` slots.  The iOS guards
  convert the (already non-negative) `int` index up to `size_t` instead,
  which is exact, so they are modelled with unbounded integers.
* `float`/`double` data only ever flow through the bridge into the platform's
  default numeric formatter, which no claim constrains; a float datum is
  therefore modelled opaquely by the text the formatter produces for it.
-/

/-- The 32-bit two's-complement wrap-around, modelling C `int` arithmetic at the
single site where the source can overflow (`int idx = index - 1`). -/
def wrap32 (x : Int) : Int := (x + 2 ^ 31) % 2 ^ 32 - 2 ^ 31

/-! ## Decimal rendering of integers

`operator<<(std::ostream&, int64_t/uint64_t)` prints the exact decimal digits
of its argument (a leading `-` for negative values).  The digit loop is
modelled with explicit fuel so that it is structural and kernel-evaluable. -/

/-- The decimal digits of `n`, least significant first, computed with fuel
(`fuel ≥ n` suffices).  `toDigitsRev fuel 0 = []`. -/
def toDigitsRev : Nat → Nat → List Nat
  | 0, _ => []
  | fuel + 1, n => if n = 0 then [] else n % 10 :: toDigitsRev fuel (n / 10)

/-- The ASCII digit character for `d < 10`. -/
def digitToChar (d : Nat) : Char := Char.ofNat (48 + d)

/-- Decimal rendering of an unsigned 64-bit quantity, as produced by
`std::ostream` for `uint64_t`. -/
def natToDecimal (n : Nat) : String :=
  if n = 0 then "0" else String.mk (((toDigitsRev n n).map digitToChar).reverse)

/-- Decimal rendering of a signed 64-bit quantity, as produced by
`std::ostream` for `int64_t`. -/
def intToDecimal (i : Int) : String :=
  if i < 0 then "-" ++ natToDecimal i.natAbs else natToDecimal i.toNat

/-- An external decimal-integer parser: accepts a non-empty all-digit string
and returns its value. -/
def parseNat (s : String) : Option Nat :=
  if s.data.isEmpty then none
  else if s.data.all (fun c => 48 ≤ c.toNat && c.toNat ≤ 57) then
    some (s.data.foldl (fun a c => a * 10 + (c.toNat - 48)) 0)
  else none

/-- An external signed decimal-integer parser: an optional leading minus sign
followed by decimal digits. -/
def parseInt (s : String) : Option Int :=
  if s.data.head? = some '-' then
    (parseNat (String.mk s.data.tail)).map (fun n => -(Int.ofNat n))
  else if s.data.isEmpty then none
  else (parseNat s).map Int.ofNat

/-! ## The text-literal (JSON string) escaper, at byte level

`escapeJsonString` (`duckdb_jni.cpp` lines 50-72, `duckdb_ios.cpp` lines
58-80) walks the bytes of a `std::string` and emits a double-quoted literal.
The two platform copies differ only in the (value-irrelevant for the escaped
range `0x00`-`0x1F`) integer cast inside the `\u` branch, so one byte-level
model covers both.  Bytes are `Nat`s below 256. -/

/-- Lowercase hexadecimal digit byte for `d < 16` (`std::hex` default). -/
def hexDigitChar (d : Nat) : Nat := if d < 10 then 48 + d else 87 + d

/-- The escape sequence the C++ `switch` emits for one input byte. -/
def escapeByte (c : Nat) : List Nat :=
  if c = 34 then [92, 34]
  else if c = 92 then [92, 92]
  else if c = 8 then [92, 98]
  else if c = 12 then [92, 102]
  else if c = 10 then [92, 110]
  else if c = 13 then [92, 114]
  else if c = 9 then [92, 116]
  else if c < 32 then
    [92, 117, hexDigitChar (c / 4096 % 16), hexDigitChar (c / 256 % 16),
      hexDigitChar (c / 16 % 16), hexDigitChar (c % 16)]
  else [c]

/-- Byte-level model of `escapeJsonString`: opening quote, escaped body,
closing quote. -/
def escapeJsonString (s : List Nat) : List Nat :=
  34 :: (s.map escapeByte).flatten ++ [34]

/-- Value of one hexadecimal digit byte (digits, lowercase and uppercase
letters), as a standard JSON decoder reads it. -/
def hexVal (c : Nat) : Option Nat :=
  if 48 ≤ c ∧ c ≤ 57 then some (c - 48)
  else if 97 ≤ c ∧ c ≤ 102 then some (c - 87)
  else if 65 ≤ c ∧ c ≤ 70 then some (c - 55)
  else none

/-- Standard JSON string-body decoding at byte level: processes escape
sequences, rejects unescaped control bytes, and requires the body to end at
the closing quote with nothing after it. -/
def decodeBody : List Nat → Option (List Nat)
  | [] => none
  | c :: rest =>
    if c = 34 then (if rest.isEmpty then some [] else none)
    else if c = 92 then
      match rest with
      | [] => none
      | e :: rest2 =>
        if e = 34 then (decodeBody rest2).map (34 :: ·)
        else if e = 92 then (decodeBody rest2).map (92 :: ·)
        else if e = 98 then (decodeBody rest2).map (8 :: ·)
        else if e = 102 then (decodeBody rest2).map (12 :: ·)
        else if e = 110 then (decodeBody rest2).map (10 :: ·)
        else if e = 114 then (decodeBody rest2).map (13 :: ·)
        else if e = 116 then (decodeBody rest2).map (9 :: ·)
        else if e = 117 then
          match rest2 with
          | h1 :: h2 :: h3 :: h4 :: rest3 =>
            match hexVal h1, hexVal h2, hexVal h3, hexVal h4 with
            | some x1, some x2, some x3, some x4 =>
              (decodeBody rest3).map ((4096 * x1 + 256 * x2 + 16 * x3 + x4) :: ·)
            | _, _, _, _ => none
          | _ => none
        else none
    else if c < 32 then none
    else (decodeBody rest).map (c :: ·)

/-- Standard JSON string-literal decoding: an opening quote followed by a
body terminated by the closing quote. -/
def decodeJsonString (l : List Nat) : Option (List Nat) :=
  match l with
  | 34 :: rest => decodeBody rest
  | _ => none

/-! ## Data model: logical types and engine values

`duckdb::LogicalTypeId` restricted to the categories the serializer
dispatches on; every other id takes the `default` branch and is collapsed
into `other`.  A `duckdb::Value` is modelled by the datum the bridge can
extract from it.  `float`/`double` data are carried as the text the
platform's default `operator<<` formatting produces for them (no claim
constrains float formatting itself). -/

inductive LogicalTypeId where
  | boolean | tinyint | smallint | integer | bigint
  | utinyint | usmallint | uinteger | ubigint
  | float | double | other
deriving DecidableEq, Repr

inductive Value where
  | null
  | boolean (b : Bool)
  | intv (i : Int)
  | uintv (n : Nat)
  | floatv (rendered : String)
  | doublev (rendered : String)
  | strv (s : String)
  | other (s : String)
deriving DecidableEq, Repr

/-- Model of `val.IsNull()`. -/
def Value.isNull : Value → Bool
  | .null => true
  | _ => false

/-- Model of `val.GetValue<bool>()` on a boolean-typed value. -/
def Value.getBool : Value → Bool
  | .boolean b => b
  | _ => false

/-- Model of `val.GetValue<int64_t>()` on a signed-integer-typed value (the engine
widens the narrower categories to 64 bits). -/
def Value.getInt64 : Value → Int
  | .intv i => i
  | _ => 0

/-- Model of `val.GetValue<uint64_t>()` on an unsigned-integer-typed value. -/
def Value.getUInt64 : Value → Nat
  | .uintv n => n
  | _ => 0

/-- The text the platform float formatter produces for a FLOAT value. -/
def Value.getFloatText : Value → String
  | .floatv s => s
  | _ => ""

/-- The text the platform float formatter produces for a DOUBLE value. -/
def Value.getDoubleText : Value → String
  | .doublev s => s
  | _ => ""

/-- Model of `val.ToString()`, used by the serializer's `default` branch. -/
def Value.toText : Value → String
  | .null => "NULL"
  | .boolean b => if b then "true" else "false"
  | .intv i => intToDecimal i
  | .uintv n => natToDecimal n
  | .floatv s => s
  | .doublev s => s
  | .strv s => s
  | .other s => s

/-! ## The text-literal escaper at character level

The serializers build `std::string`s; this is the same `escapeJsonString`
logic as the byte-level model above, rendered on Lean `Char`/`String` so the
serializer output is a `String`. -/

/-- One character of `escapeJsonString` output, character-level view. -/
def escapeCharText (c : Char) : String :=
  if c.toNat = 34 then "\\\""
  else if c.toNat = 92 then "\\\\"
  else if c.toNat = 8 then "\\b"
  else if c.toNat = 12 then "\\f"
  else if c.toNat = 10 then "\\n"
  else if c.toNat = 13 then "\\r"
  else if c.toNat = 9 then "\\t"
  else if c.toNat < 32 then
    "\\u" ++ String.mk [Char.ofNat (hexDigitChar (c.toNat / 4096 % 16)),
      Char.ofNat (hexDigitChar (c.toNat / 256 % 16)),
      Char.ofNat (hexDigitChar (c.toNat / 16 % 16)),
      Char.ofNat (hexDigitChar (c.toNat % 16))]
  else String.singleton c

/-- Character-level `escapeJsonString`: quoted, escaped text literal. -/
def escapeJsonStringText (s : String) : String :=
  "\"" ++ String.join (s.data.map escapeCharText) ++ "\""

/-! ## The Value Encoder

The per-cell `switch (type.id())` shared verbatim by all three serializer
bodies (`duckdb_jni.cpp` lines 107-139 and 179-211, `duckdb_ios.cpp` lines
115-147). -/

/-- Encode one (possibly null) cell given its declared column type. -/
def encodeCell (ty : LogicalTypeId) (val : Value) : String :=
  if val.isNull then "null"
  else match ty with
  | .boolean => if val.getBool then "true" else "false"
  | .tinyint | .smallint | .integer | .bigint => intToDecimal val.getInt64
  | .utinyint | .usmallint | .uinteger | .ubigint => natToDecimal val.getUInt64
  | .float => val.getFloatText
  | .double => val.getDoubleText
  | .other => escapeJsonStringText val.toText

/-- The unsigned-integer type categories (`UTINYINT`..`UBIGINT`). -/
def isUnsignedIntType : LogicalTypeId → Bool
  | .utinyint | .usmallint | .uinteger | .ubigint => true
  | _ => false

/-- The signed-integer type categories (`TINYINT`..`BIGINT`). -/
def isSignedIntType : LogicalTypeId → Bool
  | .tinyint | .smallint | .integer | .bigint => true
  | _ => false

/-! ## The Result Serializer

A row is the list of cell values the engine yields for it.  The inner
column loop (identical in all three serializer bodies) walks columns
`0 .. ColumnCount()-1` in declaration order; `ColumnCount()` is the length
of the result's `types` vector, and the engine guarantees `names`, `types`
and each row have that same length (out-of-range access is modelled by the
list default, which no claim exercises). -/

abbrev Row := List Value

/-- One serialized record: the `json << "{" ... "}"` column loop. -/
def rowJson (names : List String) (types : List LogicalTypeId) (row : Row) : String :=
  "\x7b" ++ String.join ((List.range types.length).map (fun col =>
    (if 0 < col then "," else "") ++ escapeJsonStringText (names.getD col "") ++ ":"
      ++ encodeCell (types.getD col .other) (row.getD col .null))) ++ "\x7d"

/-- Row loop of the chunked serializer: `first` is the running `first_row`
flag (comma before every row except the first overall). -/
def rowsJson (names : List String) (types : List LogicalTypeId) :
    List Row → Bool → String
  | [], _ => ""
  | r :: rs, first =>
    (if first then "" else ",") ++ rowJson names types r ++ rowsJson names types rs false

/-- Chunk loop of the chunked serializer: `while ((chunk = Fetch()) != nullptr
&& chunk->size() > 0)`.  The engine's chunk stream is modelled as the list of
chunks `Fetch` would yield; a missing next chunk (null) is the end of the
list, and an empty chunk stops the loop. -/
def chunksJson (names : List String) (types : List LogicalTypeId) :
    List (List Row) → Bool → String
  | [], _ => ""
  | c :: cs, first =>
    if c.length = 0 then ""
    else rowsJson names types c first ++ chunksJson names types cs false

/-- Model of `queryResultToJson` (`duckdb_jni.cpp` lines 76-148): the chunked /
streaming serializer.  `resultToJson` of `duckdb_ios.cpp` (lines 84-156) is
the same function body operating on the `QueryResult` base class, so this
definition models both. -/
def queryResultToJson (names : List String) (types : List LogicalTypeId)
    (chunks : List (List Row)) : String :=
  "[" ++ chunksJson names types chunks true ++ "]"

/-- Row loop of the materialized serializer: `for (row = 0; row < row_count;
row++)` with a comma before every row with index `> 0`. -/
def rowsJsonIdx (names : List String) (types : List LogicalTypeId) :
    List Row → Nat → String
  | [], _ => ""
  | r :: rs, i =>
    (if 0 < i then "," else "") ++ rowJson names types r ++ rowsJsonIdx names types rs (i + 1)

/-- Model of `resultToJson` (`duckdb_jni.cpp` lines 152-219): the materialized /
random-access serializer over a `MaterializedQueryResult`. -/
def resultToJson (names : List String) (types : List LogicalTypeId)
    (rows : List Row) : String :=
  "[" ++ rowsJsonIdx names types rows 0 ++ "]"

/-! ## Engine black box and result objects

The database engine is external (spec, section 1).  Each entry point that
calls into it receives the engine's answer for that call as an `EngineCall`
argument: `throws` models a C++ exception crossing back into the bridge's
`try`/`catch`, `returns` a result object.  Result objects carry the
engine-reported error (`HasError()`/`GetError()`) and the data the bridge
reads from them. -/

inductive EngineCall (α : Type) where
  | throws (msg : String)
  | returns (a : α)

/-- A `MaterializedQueryResult`: error slot, column names/types and the
random-access rows. -/
structure MatResult where
  error : Option String
  names : List String
  types : List LogicalTypeId
  rows : List Row

/-- A streaming `QueryResult`: error slot, column names/types and the chunk
stream `Fetch` would yield. -/
structure StreamResult where
  error : Option String
  names : List String
  types : List LogicalTypeId
  chunks : List (List Row)

/-- A result used only for its `RowCount()` (the `execute` entry points). -/
structure ExecResult where
  error : Option String
  rowCount : Nat

/-- A `PreparedStatement` as the bridge reads it: error slot and
`named_param_map.size()`. -/
structure PrepResult where
  error : Option String
  nParams : Nat

/-! ## The Binding Store -/

/-- Model of `std::vector<duckdb::Value>::resize(n)`: truncate or extend with
default-constructed (null) values. -/
def resizeVec (l : List Value) (n : Nat) : List Value :=
  if n ≤ l.length then l.take n else l ++ List.replicate (n - l.length) Value.null

/-! ### Android (JNI) entry points, `duckdb_jni.cpp` -/

/-- Model of `Java_..._DuckDBNative_query` (lines 352-388): string-return convention,
`"ERROR:" + message` on every failure path. -/
def Java_ph_com_regalado_capacitor_duckdb_DuckDBNative_query
    (connPtr : Option Unit) (sql : Option String) (call : EngineCall MatResult) : String :=
  match connPtr with
  | none => "ERROR:Invalid connection handle"
  | some _ =>
    match sql with
    | none => "ERROR:Invalid SQL string"
    | some _ =>
      match call with
      | .throws m => "ERROR:" ++ m
      | .returns r =>
        match r.error with
        | some m => "ERROR:" ++ m
        | none => resultToJson r.names r.types r.rows

/-- Model of `Java_..._DuckDBNative_execute` (lines 396-436). -/
def Java_ph_com_regalado_capacitor_duckdb_DuckDBNative_execute
    (connPtr : Option Unit) (sql : Option String) (call : EngineCall ExecResult) : String :=
  match connPtr with
  | none => "ERROR:Invalid connection handle"
  | some _ =>
    match sql with
    | none => "ERROR:Invalid SQL string"
    | some _ =>
      match call with
      | .throws m => "ERROR:" ++ m
      | .returns r =>
        match r.error with
        | some m => "ERROR:" ++ m
        | none => "\x7b\"changes\":" ++ intToDecimal (r.rowCount : Int) ++ "\x7d"

/-- Model of `Java_..._DuckDBNative_prepare` (lines 444-492): returns the statement
handle (0 on every failure), whose binding vector is resized from empty to
`named_param_map.size()`. -/
def Java_ph_com_regalado_capacitor_duckdb_DuckDBNative_prepare
    (connPtr : Option Unit) (sql : Option String) (call : EngineCall PrepResult) :
    Option (List Value) :=
  match connPtr with
  | none => none
  | some _ =>
    match sql with
    | none => none
    | some _ =>
      match call with
      | .throws _ => none
      | .returns r =>
        match r.error with
        | some _ => none
        | none => some (resizeVec [] r.nParams)

/-- Model of `Java_..._DuckDBNative_destroyPrepared` (lines 499-509); the returned
flag records whether `delete` was reached (null handle defensively no-ops).
-/
def Java_ph_com_regalado_capacitor_duckdb_DuckDBNative_destroyPrepared
    (stmtPtr : Option (List Value)) : Bool :=
  match stmtPtr with
  | none => false
  | some _ => true

/-- Model of `Java_..._DuckDBNative_bindString` (lines 519-552).  `value = none` is a
null `jstring` (`GetStringUTFChars` yields null).  The 1-based to 0-based
conversion `int idx = index - 1` and the `(int)` cast of the vector size in
the guard `idx >= (int)bindings.size()` are 32-bit wrapped, as in the
source. -/
def Java_ph_com_regalado_capacitor_duckdb_DuckDBNative_bindString
    (stmtPtr : Option (List Value)) (index : Int) (value : Option String) :
    Bool × Option (List Value) :=
  match stmtPtr with
  | none => (false, none)
  | some b =>
    let idx := wrap32 (index - 1)
    if idx < 0 then (false, some b)
    else
      let b1 := if wrap32 (b.length : Int) ≤ idx then resizeVec b (idx.toNat + 1) else b
      match value with
      | none => (true, some (b1.set idx.toNat Value.null))
      | some s => (true, some (b1.set idx.toNat (Value.strv s)))

/-- Model of `Java_..._DuckDBNative_bindLong` (lines 561-587). -/
def Java_ph_com_regalado_capacitor_duckdb_DuckDBNative_bindLong
    (stmtPtr : Option (List Value)) (index : Int) (value : Int) :
    Bool × Option (List Value) :=
  match stmtPtr with
  | none => (false, none)
  | some b =>
    let idx := wrap32 (index - 1)
    if idx < 0 then (false, some b)
    else
      let b1 := if wrap32 (b.length : Int) ≤ idx then resizeVec b (idx.toNat + 1) else b
      (true, some (b1.set idx.toNat (Value.intv value)))

/-- Model of `Java_..._DuckDBNative_bindDouble` (lines 596-622); the double datum is
opaque (see the module comment). -/
def Java_ph_com_regalado_capacitor_duckdb_DuckDBNative_bindDouble
    (stmtPtr : Option (List Value)) (index : Int) (value : String) :
    Bool × Option (List Value) :=
  match stmtPtr with
  | none => (false, none)
  | some b =>
    let idx := wrap32 (index - 1)
    if idx < 0 then (false, some b)
    else
      let b1 := if wrap32 (b.length : Int) ≤ idx then resizeVec b (idx.toNat + 1) else b
      (true, some (b1.set idx.toNat (Value.doublev value)))

/-- Model of `Java_..._DuckDBNative_bindBoolean` (lines 631-657). -/
def Java_ph_com_regalado_capacitor_duckdb_DuckDBNative_bindBoolean
    (stmtPtr : Option (List Value)) (index : Int) (value : Bool) :
    Bool × Option (List Value) :=
  match stmtPtr with
  | none => (false, none)
  | some b =>
    let idx := wrap32 (index - 1)
    if idx < 0 then (false, some b)
    else
      let b1 := if wrap32 (b.length : Int) ≤ idx then resizeVec b (idx.toNat + 1) else b
      (true, some (b1.set idx.toNat (Value.boolean value)))

/-- Model of `Java_..._DuckDBNative_bindNull` (lines 665-691). -/
def Java_ph_com_regalado_capacitor_duckdb_DuckDBNative_bindNull
    (stmtPtr : Option (List Value)) (index : Int) :
    Bool × Option (List Value) :=
  match stmtPtr with
  | none => (false, none)
  | some b =>
    let idx := wrap32 (index - 1)
    if idx < 0 then (false, some b)
    else
      let b1 := if wrap32 (b.length : Int) ≤ idx then resizeVec b (idx.toNat + 1) else b
      (true, some (b1.set idx.toNat Value.null))

/-- Model of `Java_..._DuckDBNative_executePrepared` (lines 698-730): passes the
stored binding vector to `stmt->Execute` (modelled by applying the engine
function to it); the store itself is not mutated. -/
def Java_ph_com_regalado_capacitor_duckdb_DuckDBNative_executePrepared
    (stmtPtr : Option (List Value)) (engine : List Value → EngineCall StreamResult) :
    String :=
  match stmtPtr with
  | none => "ERROR:Invalid statement handle"
  | some b =>
    match engine b with
    | .throws m => "ERROR:" ++ m
    | .returns r =>
      match r.error with
      | some m => "ERROR:" ++ m
      | none => queryResultToJson r.names r.types r.chunks

/-- Model of `Java_..._DuckDBNative_clearBindings` (lines 737-753): every held slot is
re-assigned the default (null) value. -/
def Java_ph_com_regalado_capacitor_duckdb_DuckDBNative_clearBindings
    (stmtPtr : Option (List Value)) : Bool × Option (List Value) :=
  match stmtPtr with
  | none => (false, none)
  | some b => (true, some (b.map (fun _ => Value.null)))

/-- Model of `Java_..._DuckDBNative_connect` (lines 308-327). -/
def Java_ph_com_regalado_capacitor_duckdb_DuckDBNative_connect
    (dbPtr : Option Unit) (call : EngineCall Unit) : Option Unit :=
  match dbPtr with
  | none => none
  | some _ =>
    match call with
    | .throws _ => none
    | .returns _ => some ()

/-- Model of `Java_..._DuckDBNative_disconnect` (lines 333-344); the returned flag
records whether `delete` was reached. -/
def Java_ph_com_regalado_capacitor_duckdb_DuckDBNative_disconnect
    (connPtr : Option Unit) : Bool :=
  match connPtr with
  | none => false
  | some _ => true

/-- Model of `Java_..._DuckDBNative_closeDatabase` (lines 290-301); the returned flag
records whether `delete` was reached. -/
def Java_ph_com_regalado_capacitor_duckdb_DuckDBNative_closeDatabase
    (dbPtr : Option Unit) : Bool :=
  match dbPtr with
  | none => false
  | some _ => true

/-! ### iOS entry points, `duckdb_ios.cpp`

Out-parameter convention: each fallible entry point returns its success
payload together with the `char** error_out` slot (`none` = slot untouched,
`some msg` = populated with `msg`). -/

/-- Model of `duckdb_ios_connect` (lines 206-229). -/
def duckdb_ios_connect (db : Option Unit) (call : EngineCall Unit) :
    Option Unit × Option String :=
  match db with
  | none => (none, some "Invalid database handle")
  | some _ =>
    match call with
    | .throws m => (none, some m)
    | .returns _ => (some (), none)

/-- Model of `duckdb_ios_disconnect` (lines 231-237); the returned flag records
whether `delete` was reached. -/
def duckdb_ios_disconnect (conn : Option Unit) : Bool :=
  match conn with
  | none => false
  | some _ => true

/-- Model of `duckdb_ios_close_database` (lines 198-204); the returned flag records
whether `delete` was reached. -/
def duckdb_ios_close_database (db : Option Unit) : Bool :=
  match db with
  | none => false
  | some _ => true

/-- Model of `duckdb_ios_query` (lines 239-268): result payload (null on failure)
plus the `error_out` slot.  The serializer is the streaming one. -/
def duckdb_ios_query (conn : Option Unit) (sql : Option String)
    (call : EngineCall StreamResult) : Option String × Option String :=
  match conn with
  | none => (none, some "Invalid connection")
  | some _ =>
    match sql with
    | none => (none, some "Invalid SQL")
    | some _ =>
      match call with
      | .throws m => (none, some m)
      | .returns r =>
        match r.error with
        | some m => (none, some m)
        | none => (some (queryResultToJson r.names r.types r.chunks), none)

/-- Model of `duckdb_ios_execute` (lines 270-313): success flag, `rows_changed_out`
slot and `error_out` slot. -/
def duckdb_ios_execute (conn : Option Unit) (sql : Option String)
    (call : EngineCall ExecResult) : Bool × Option Int × Option String :=
  match conn with
  | none => (false, none, some "Invalid connection")
  | some _ =>
    match sql with
    | none => (false, none, some "Invalid SQL")
    | some _ =>
      match call with
      | .throws m => (false, none, some m)
      | .returns r =>
        match r.error with
        | some m => (false, none, some m)
        | none => (true, some (r.rowCount : Int), none)

/-- Model of `duckdb_ios_prepare` (lines 315-347): statement handle (null on failure)
plus `error_out`; the fresh wrapper's binding vector is resized from empty
to `named_param_map.size()`. -/
def duckdb_ios_prepare (conn : Option Unit) (sql : Option String)
    (call : EngineCall PrepResult) : Option (List Value) × Option String :=
  match conn with
  | none => (none, some "Invalid connection")
  | some _ =>
    match sql with
    | none => (none, some "Invalid SQL")
    | some _ =>
      match call with
      | .throws m => (none, some m)
      | .returns r =>
        match r.error with
        | some m => (none, some m)
        | none => (some (resizeVec [] r.nParams), none)

/-- Model of `duckdb_ios_destroy_prepared` (lines 349-354); the returned flag records
whether `delete` was reached. -/
def duckdb_ios_destroy_prepared (stmt : Option (List Value)) : Bool :=
  match stmt with
  | none => false
  | some _ => true

/-- Model of `duckdb_ios_bind_string` (lines 356-373): `index < 1` is rejected
before the 0-based conversion, so no overflow is reachable here. -/
def duckdb_ios_bind_string (stmt : Option (List Value)) (index : Int)
    (value : Option String) : Bool × Option (List Value) :=
  match stmt with
  | none => (false, none)
  | some b =>
    if index < 1 then (false, some b)
    else
      let idx := index - 1
      let b1 := if (b.length : Int) ≤ idx then resizeVec b (idx.toNat + 1) else b
      match value with
      | some s => (true, some (b1.set idx.toNat (Value.strv s)))
      | none => (true, some (b1.set idx.toNat Value.null))

/-- Model of `duckdb_ios_bind_int64` (lines 375-387). -/
def duckdb_ios_bind_int64 (stmt : Option (List Value)) (index : Int)
    (value : Int) : Bool × Option (List Value) :=
  match stmt with
  | none => (false, none)
  | some b =>
    if index < 1 then (false, some b)
    else
      let idx := index - 1
      let b1 := if (b.length : Int) ≤ idx then resizeVec b (idx.toNat + 1) else b
      (true, some (b1.set idx.toNat (Value.intv value)))

/-- Model of `duckdb_ios_bind_double` (lines 389-401); the double datum is opaque. -/
def duckdb_ios_bind_double (stmt : Option (List Value)) (index : Int)
    (value : String) : Bool × Option (List Value) :=
  match stmt with
  | none => (false, none)
  | some b =>
    if index < 1 then (false, some b)
    else
      let idx := index - 1
      let b1 := if (b.length : Int) ≤ idx then resizeVec b (idx.toNat + 1) else b
      (true, some (b1.set idx.toNat (Value.doublev value)))

/-- Model of `duckdb_ios_bind_bool` (lines 403-415). -/
def duckdb_ios_bind_bool (stmt : Option (List Value)) (index : Int)
    (value : Bool) : Bool × Option (List Value) :=
  match stmt with
  | none => (false, none)
  | some b =>
    if index < 1 then (false, some b)
    else
      let idx := index - 1
      let b1 := if (b.length : Int) ≤ idx then resizeVec b (idx.toNat + 1) else b
      (true, some (b1.set idx.toNat (Value.boolean value)))

/-- Model of `duckdb_ios_bind_null` (lines 417-429). -/
def duckdb_ios_bind_null (stmt : Option (List Value)) (index : Int) :
    Bool × Option (List Value) :=
  match stmt with
  | none => (false, none)
  | some b =>
    if index < 1 then (false, some b)
    else
      let idx := index - 1
      let b1 := if (b.length : Int) ≤ idx then resizeVec b (idx.toNat + 1) else b
      (true, some (b1.set idx.toNat Value.null))

/-- Model of `duckdb_ios_clear_bindings` (lines 431-438): `void` return; the result
is the statement handle's store afterwards (`none` = null handle, untouched).
-/
def duckdb_ios_clear_bindings (stmt : Option (List Value)) : Option (List Value) :=
  match stmt with
  | none => none
  | some b => some (b.map (fun _ => Value.null))

/-- Model of `duckdb_ios_execute_prepared` (lines 440-469): passes the stored binding
vector to `stmt->Execute`; payload plus `error_out`. -/
def duckdb_ios_execute_prepared (stmt : Option (List Value))
    (engine : List Value → EngineCall StreamResult) : Option String × Option String :=
  match stmt with
  | none => (none, some "Invalid statement handle")
  | some b =>
    match engine b with
    | .throws m => (none, some m)
    | .returns r =>
      match r.error with
      | some m => (none, some m)
      | none => (some (queryResultToJson r.names r.types r.chunks), none)

/-- Model of `duckdb_ios_has_spatial_extension` (lines 477-482). -/
def duckdb_ios_has_spatial_extension (db : Option Bool) : Bool :=
  match db with
  | none => false
  | some loaded => loaded

/-! ## Uniform view of the five bind operations and of store-mutating calls

The five bind entry points per platform share one growth discipline; a
`BindOp` names which entry point is invoked and with which datum, and the
dispatchers below simply invoke the corresponding definition, so statements
can quantify over "every bind operation". -/

inductive BindOp where
  | bstr (s : Option String)
  | bint (i : Int)
  | bdouble (d : String)
  | bbool (b : Bool)
  | bnull
deriving Repr

/-- The `duckdb::Value` each bind operation writes at its index. -/
def bindOpValue : BindOp → Value
  | .bstr none => Value.null
  | .bstr (some s) => Value.strv s
  | .bint i => Value.intv i
  | .bdouble d => Value.doublev d
  | .bbool b => Value.boolean b
  | .bnull => Value.null

/-- Dispatch a bind operation to the Android entry point it names. -/
def applyBindJNI (stmtPtr : Option (List Value)) (index : Int) :
    BindOp → Bool × Option (List Value)
  | .bstr s => Java_ph_com_regalado_capacitor_duckdb_DuckDBNative_bindString stmtPtr index s
  | .bint i => Java_ph_com_regalado_capacitor_duckdb_DuckDBNative_bindLong stmtPtr index i
  | .bdouble d => Java_ph_com_regalado_capacitor_duckdb_DuckDBNative_bindDouble stmtPtr index d
  | .bbool b => Java_ph_com_regalado_capacitor_duckdb_DuckDBNative_bindBoolean stmtPtr index b
  | .bnull => Java_ph_com_regalado_capacitor_duckdb_DuckDBNative_bindNull stmtPtr index

/-- Dispatch a bind operation to the iOS entry point it names. -/
def applyBindIos (stmt : Option (List Value)) (index : Int) :
    BindOp → Bool × Option (List Value)
  | .bstr s => duckdb_ios_bind_string stmt index s
  | .bint i => duckdb_ios_bind_int64 stmt index i
  | .bdouble d => duckdb_ios_bind_double stmt index d
  | .bbool b => duckdb_ios_bind_bool stmt index b
  | .bnull => duckdb_ios_bind_null stmt index

/-- One store-affecting operation on a live prepared statement. -/
inductive StoreOp where
  | obind (index : Int) (op : BindOp)
  | oclear
  | oexec
deriving Repr

/-- Effect of one operation on the Android statement's binding store. -/
def stepJNI (b : List Value) : StoreOp → List Value
  | .obind index op =>
    match (applyBindJNI (some b) index op).2 with
    | some b1 => b1
    | none => b
  | .oclear =>
    match (Java_ph_com_regalado_capacitor_duckdb_DuckDBNative_clearBindings (some b)).2 with
    | some b1 => b1
    | none => b
  | .oexec => b

/-- Effect of one operation on the iOS statement's binding store. -/
def stepIos (b : List Value) : StoreOp → List Value
  | .obind index op =>
    match (applyBindIos (some b) index op).2 with
    | some b1 => b1
    | none => b
  | .oclear =>
    match duckdb_ios_clear_bindings (some b) with
    | some b1 => b1
    | none => b
  | .oexec => b

/-- Predicate singling out operations whose bind index lies strictly inside
the 32-bit range, i.e. excludes `INT_MIN`, the one `jint` whose 0-based
conversion overflows (see the C6 analysis). -/
def opIndexInRange : StoreOp → Bool
  | .obind index _ => decide (-(2 ^ 31) < index) && decide (index < 2 ^ 31)
  | .oclear => true
  | .oexec => true

/-- Common write discipline of the bind entry points once the index check
has passed: grow-to-fit (`resize(idx + 1)` filling with nulls) if the
0-based index is outside the store, then overwrite slot `idx`.  The Android
guards compare `idx` against `(int)bindings.size()` (wrapped through
`wrap32` in their definitions); that coincides with this unbounded form
exactly when the store holds fewer than `2^31` slots. -/
def bindWrite (b : List Value) (idx : Nat) (v : Value) : List Value :=
  (if (b.length : Int) ≤ (idx : Int) then resizeVec b (idx + 1) else b).set idx v

/-! ## Theorems -/

theorem toDigitsRev_lt_ten : ∀ fuel n d, d ∈ toDigitsRev fuel n → d < 10 := by
  intro fuel
  induction fuel with
  | zero => intro n d h; simp [toDigitsRev] at h
  | succ fuel ih =>
    intro n d h
    simp only [toDigitsRev] at h
    split at h
    · simp at h
    · rcases List.mem_cons.mp h with h1 | h2
      · subst h1; exact Nat.mod_lt _ (by omega)
      · exact ih _ _ h2

theorem toDigitsRev_ne_nil (fuel n : Nat) (hf : 0 < fuel) (hn : 0 < n) :
    toDigitsRev fuel n ≠ [] := by
  cases fuel with
  | zero => omega
  | succ fuel =>
    have : n ≠ 0 := by omega
    simp [toDigitsRev, this]

theorem digitToChar_toNat : ∀ d, d < 10 → (digitToChar d).toNat = 48 + d := by
  decide

/-- Reading back the reversed digit list recovers the number. -/
theorem foldl_toDigitsRev (fuel : Nat) : ∀ n a, n ≤ fuel →
    ((toDigitsRev fuel n).reverse).foldl (fun acc d => acc * 10 + d) a
      = a * 10 ^ (toDigitsRev fuel n).length + n := by
  induction fuel with
  | zero =>
    intro n a h
    have : n = 0 := by omega
    subst this
    simp [toDigitsRev]
  | succ fuel ih =>
    intro n a h
    by_cases hn : n = 0
    · subst hn; simp [toDigitsRev]
    · have hd : toDigitsRev (fuel + 1) n = n % 10 :: toDigitsRev fuel (n / 10) := by
        simp [toDigitsRev, hn]
      rw [hd]
      have hle : n / 10 ≤ fuel := by omega
      simp only [List.reverse_cons, List.foldl_append, List.foldl_cons, List.foldl_nil,
        List.length_cons]
      rw [ih (n / 10) a hle, pow_succ]
      generalize (10 : Nat) ^ (toDigitsRev fuel (n / 10)).length = k
      have h2 : n / 10 * 10 + n % 10 = n := by omega
      calc (a * k + n / 10) * 10 + n % 10
          = a * (k * 10) + (n / 10 * 10 + n % 10) := by ring
        _ = a * (k * 10) + n := by rw [h2]

theorem parseNat_natToDecimal (n : Nat) : parseNat (natToDecimal n) = some n := by
  by_cases hn : n = 0
  · subst hn; decide
  · have hne : toDigitsRev n n ≠ [] := toDigitsRev_ne_nil n n (by omega) (by omega)
    unfold natToDecimal parseNat
    simp only [hn, if_false]
    have hempty : (((toDigitsRev n n).map digitToChar).reverse).isEmpty = false := by
      simp [List.isEmpty_iff, hne]
    have hall : (((toDigitsRev n n).map digitToChar).reverse).all
        (fun c => 48 ≤ c.toNat && c.toNat ≤ 57) = true := by
      rw [List.all_eq_true]
      intro c hc
      rw [List.mem_reverse, List.mem_map] at hc
      obtain ⟨d, hd, rfl⟩ := hc
      have h10 := toDigitsRev_lt_ten n n d hd
      simp only [digitToChar_toNat d h10, Bool.and_eq_true, decide_eq_true_eq]
      omega
    rw [if_neg (by simp [hempty]), if_pos hall]
    congr 1
    have hmr : ((toDigitsRev n n).map digitToChar).reverse
        = ((toDigitsRev n n).reverse).map digitToChar := by
      simp [List.map_reverse]
    rw [hmr, List.foldl_map]
    have hext : ((toDigitsRev n n).reverse).foldl
          (fun a d => a * 10 + ((digitToChar d).toNat - 48)) 0
        = ((toDigitsRev n n).reverse).foldl (fun a d => a * 10 + d) 0 := by
      apply List.foldl_ext
      intro a d hdmem
      have h10 : d < 10 := toDigitsRev_lt_ten n n d (List.mem_reverse.mp hdmem)
      rw [digitToChar_toNat d h10]
      omega
    rw [hext, foldl_toDigitsRev n n 0 (le_refl n)]
    simp

theorem natToDecimal_all_digits :
    ∀ n, ∀ c ∈ (natToDecimal n).data, 48 ≤ c.toNat ∧ c.toNat ≤ 57 := by
  intro n c hc
  by_cases hn : n = 0
  · subst hn
    simp only [natToDecimal, if_pos rfl] at hc
    have : c = '0' := by
      simpa using hc
    subst this
    decide
  · simp only [natToDecimal, hn, if_false] at hc
    have hc2 : c ∈ ((toDigitsRev n n).map digitToChar).reverse := hc
    rw [List.mem_reverse, List.mem_map] at hc2
    obtain ⟨d, hd, rfl⟩ := hc2
    have h10 := toDigitsRev_lt_ten n n d hd
    rw [digitToChar_toNat d h10]
    omega

theorem String_mk_data (s : String) : String.mk s.data = s := rfl

theorem String_data_append (s t : String) : (s ++ t).data = s.data ++ t.data := by
  cases s; cases t; rfl

theorem natToDecimal_data_ne_nil (n : Nat) : (natToDecimal n).data ≠ [] := by
  by_cases hn : n = 0
  · subst hn; decide
  · have hne : toDigitsRev n n ≠ [] := toDigitsRev_ne_nil n n (by omega) (by omega)
    simp only [natToDecimal, hn, if_false]
    intro hcontr
    apply hne
    have : (toDigitsRev n n).map digitToChar = [] := by
      have h1 : (((toDigitsRev n n).map digitToChar).reverse).reverse = [] := by
        rw [hcontr]; rfl
      simpa using h1
    simpa using this

theorem parseInt_intToDecimal (i : Int) : parseInt (intToDecimal i) = some i := by
  by_cases hneg : i < 0
  · have hrw : intToDecimal i = "-" ++ natToDecimal i.natAbs := by
      simp [intToDecimal, hneg]
    rw [hrw]
    have hdata : ("-" ++ natToDecimal i.natAbs).data
        = '-' :: (natToDecimal i.natAbs).data := by
      rw [String_data_append]; rfl
    unfold parseInt
    rw [hdata]
    rw [if_pos (by simp)]
    simp only [List.tail_cons]
    rw [String_mk_data, parseNat_natToDecimal]
    simp only [Option.map_some']
    congr 1
    simp only [Int.ofNat_eq_coe]
    omega
  · have hrw : intToDecimal i = natToDecimal i.toNat := by
      simp [intToDecimal, hneg]
    rw [hrw]
    rcases hcs : (natToDecimal i.toNat).data with _ | ⟨c, rest⟩
    · exact absurd hcs (natToDecimal_data_ne_nil i.toNat)
    · have hcdig : 48 ≤ c.toNat ∧ c.toNat ≤ 57 := by
        apply natToDecimal_all_digits i.toNat
        rw [hcs]; exact List.mem_cons_self _ _
      have hcne : c ≠ '-' := by
        intro hcontr
        subst hcontr
        revert hcdig
        decide
      unfold parseInt
      rw [hcs]
      rw [if_neg (by simp [hcne]), if_neg (by simp)]
      rw [parseNat_natToDecimal]
      simp only [Option.map_some']
      congr 1
      simp only [Int.ofNat_eq_coe]
      omega

theorem hexVal_hexDigitChar : ∀ d, d < 16 → hexVal (hexDigitChar d) = some d := by
  decide

/-- Decoding one emitted escape sequence consumes exactly that sequence and
produces the original byte. -/
theorem decodeBody_escapeByte (c : Nat) (hc : c < 256) (l : List Nat) :
    decodeBody (escapeByte c ++ l) = (decodeBody l).map (c :: ·) := by
  by_cases h34 : c = 34
  · subst h34
    rw [show escapeByte 34 ++ l = 92 :: 34 :: l from rfl, decodeBody.eq_def]
    simp
  by_cases h92 : c = 92
  · subst h92
    rw [show escapeByte 92 ++ l = 92 :: 92 :: l from rfl, decodeBody.eq_def]
    simp
  by_cases h8 : c = 8
  · subst h8
    rw [show escapeByte 8 ++ l = 92 :: 98 :: l from rfl, decodeBody.eq_def]
    simp
  by_cases h12 : c = 12
  · subst h12
    rw [show escapeByte 12 ++ l = 92 :: 102 :: l from rfl, decodeBody.eq_def]
    simp
  by_cases h10 : c = 10
  · subst h10
    rw [show escapeByte 10 ++ l = 92 :: 110 :: l from rfl, decodeBody.eq_def]
    simp
  by_cases h13 : c = 13
  · subst h13
    rw [show escapeByte 13 ++ l = 92 :: 114 :: l from rfl, decodeBody.eq_def]
    simp
  by_cases h9 : c = 9
  · subst h9
    rw [show escapeByte 9 ++ l = 92 :: 116 :: l from rfl, decodeBody.eq_def]
    simp
  by_cases hctl : c < 32
  · have hesc : escapeByte c ++ l =
        92 :: 117 :: hexDigitChar (c / 4096 % 16) :: hexDigitChar (c / 256 % 16) ::
          hexDigitChar (c / 16 % 16) :: hexDigitChar (c % 16) :: l := by
      simp [escapeByte, h34, h92, h8, h12, h10, h13, h9, hctl]
    rw [hesc, decodeBody.eq_def]
    have e1 := hexVal_hexDigitChar (c / 4096 % 16) (Nat.mod_lt _ (by omega))
    have e2 := hexVal_hexDigitChar (c / 256 % 16) (Nat.mod_lt _ (by omega))
    have e3 := hexVal_hexDigitChar (c / 16 % 16) (Nat.mod_lt _ (by omega))
    have e4 := hexVal_hexDigitChar (c % 16) (Nat.mod_lt _ (by omega))
    have hval : 4096 * (c / 4096 % 16) + 256 * (c / 256 % 16)
        + 16 * (c / 16 % 16) + c % 16 = c := by omega
    simp [e1, e2, e3, e4, hval]
  · have hesc : escapeByte c ++ l = c :: l := by
      simp [escapeByte, h34, h92, h8, h12, h10, h13, h9, hctl]
    rw [hesc, decodeBody.eq_def]
    simp [h34, h92, hctl]

/-- Decoding the escaped body plus closing quote recovers the bytes. -/
theorem decodeBody_escaped (s : List Nat) (hs : ∀ b ∈ s, b < 256) :
    decodeBody ((s.map escapeByte).flatten ++ [34]) = some s := by
  induction s with
  | nil =>
    rw [show (([] : List Nat).map escapeByte).flatten ++ [34] = [34] from rfl,
      decodeBody.eq_def]
    simp
  | cons c cs ih =>
    have hc : c < 256 := hs c (List.mem_cons_self _ _)
    have hcs : ∀ b ∈ cs, b < 256 := fun b hb => hs b (List.mem_cons_of_mem _ hb)
    simp only [List.map_cons, List.flatten_cons, List.append_assoc]
    rw [decodeBody_escapeByte c hc, ih hcs]
    rfl

theorem String_append_empty (s : String) : s ++ "" = s := by
  cases s with
  | mk d => exact congrArg String.mk (List.append_nil d)

theorem String_append_assoc (a b c : String) : a ++ b ++ c = a ++ (b ++ c) := by
  cases a with
  | mk x =>
    cases b with
    | mk y =>
      cases c with
      | mk z => exact congrArg String.mk (List.append_assoc x y z)

theorem rowsJsonIdx_pos (names : List String) (types : List LogicalTypeId) :
    ∀ (rows : List Row) (i : Nat), 0 < i →
      rowsJsonIdx names types rows i = rowsJson names types rows false := by
  intro rows
  induction rows with
  | nil => intro i h; rfl
  | cons r rs ih =>
    intro i h
    simp only [rowsJsonIdx, rowsJson, if_pos h]
    rw [ih (i + 1) (by omega)]
    simp

theorem rowsJsonIdx_zero (names : List String) (types : List LogicalTypeId)
    (rows : List Row) :
    rowsJsonIdx names types rows 0 = rowsJson names types rows true := by
  cases rows with
  | nil => rfl
  | cons r rs =>
    simp only [rowsJsonIdx, rowsJson]
    rw [rowsJsonIdx_pos names types rs 1 (by omega)]
    simp

theorem rowsJson_append (names : List String) (types : List LogicalTypeId) :
    ∀ (a b : List Row) (first : Bool), a ≠ [] →
      rowsJson names types (a ++ b) first
        = rowsJson names types a first ++ rowsJson names types b false := by
  intro a
  induction a with
  | nil => intro b first h; exact absurd rfl h
  | cons x xs ih =>
    intro b first h
    by_cases hxs : xs = []
    · subst hxs
      simp only [List.cons_append, List.nil_append, List.append_eq, rowsJson]
      simp [String_append_empty]
    · simp only [List.cons_append, List.append_eq, rowsJson]
      rw [ih b false hxs, ← String_append_assoc]

theorem chunksJson_flatten (names : List String) (types : List LogicalTypeId) :
    ∀ (chunks : List (List Row)) (first : Bool), (∀ c ∈ chunks, c ≠ []) →
      chunksJson names types chunks first
        = rowsJson names types chunks.flatten first := by
  intro chunks
  induction chunks with
  | nil => intro first h; rfl
  | cons c cs ih =>
    intro first h
    have hc : c ≠ [] := h c (List.mem_cons_self _ _)
    have hcs : ∀ x ∈ cs, x ≠ [] := fun x hx => h x (List.mem_cons_of_mem _ hx)
    simp only [chunksJson, List.flatten_cons]
    rw [if_neg (fun hh => hc (List.length_eq_zero.mp hh))]
    rw [ih false hcs, rowsJson_append names types c cs.flatten first hc]

/-- C1: for the same column names, column types, rows and row order — the
chunk stream containing no empty chunk (`Fetch`'s end sentinel) and joining
to exactly those rows — the chunked/streaming serializer
(`queryResultToJson`) and the materialized/random-access serializer
(`resultToJson`) produce byte-identical output: same rows in the same
order, same columns in declaration order, none skipped or reordered. -/
theorem serializer_modes_agree (names : List String) (types : List LogicalTypeId)
    (chunks : List (List Row)) (h : ∀ c ∈ chunks, c ≠ []) :
    queryResultToJson names types chunks = resultToJson names types chunks.flatten := by
  unfold queryResultToJson resultToJson
  rw [chunksJson_flatten names types chunks true h, rowsJsonIdx_zero]

/-- Witness for C1 at a concrete two-chunk, three-row, two-column result. -/
theorem serializer_modes_agree_witness :
    (∀ c ∈ [[[Value.intv 1, Value.strv "x"]],
             [[Value.intv 2, Value.null], [Value.intv 3, Value.strv "y"]]],
        c ≠ ([] : List Row)) ∧
    queryResultToJson ["a", "b"] [.bigint, .other]
        [[[Value.intv 1, Value.strv "x"]],
         [[Value.intv 2, Value.null], [Value.intv 3, Value.strv "y"]]]
      = resultToJson ["a", "b"] [.bigint, .other]
          [[[Value.intv 1, Value.strv "x"]],
           [[Value.intv 2, Value.null], [Value.intv 3, Value.strv "y"]]].flatten :=
  ⟨by decide, serializer_modes_agree _ _ _ (by decide)⟩

/-- C7: every non-null unsigned-integer-category value is rendered as the
exact decimal literal of its 64-bit-widened value (externally parsing the
literal recovers the value, over the full unsigned 64-bit range, never as a
negative number or in scientific notation — the output is all decimal
digits), and every signed-integer-category value likewise as the exact
decimal literal of its 64-bit-widened signed value. -/
theorem integer_rendering_exact :
    (∀ ty, isUnsignedIntType ty = true → ∀ n : Nat, n < 2 ^ 64 →
        encodeCell ty (Value.uintv n) = natToDecimal n
          ∧ parseNat (encodeCell ty (Value.uintv n)) = some n)
    ∧ (∀ ty, isSignedIntType ty = true → ∀ i : Int, -(2 ^ 63) ≤ i → i < 2 ^ 63 →
        encodeCell ty (Value.intv i) = intToDecimal i
          ∧ parseInt (encodeCell ty (Value.intv i)) = some i) := by
  constructor
  · intro ty hty n _
    have he : encodeCell ty (Value.uintv n) = natToDecimal n := by
      cases ty <;> simp_all [isUnsignedIntType, encodeCell, Value.isNull, Value.getUInt64]
    exact ⟨he, by rw [he, parseNat_natToDecimal]⟩
  · intro ty hty i _ _
    have he : encodeCell ty (Value.intv i) = intToDecimal i := by
      cases ty <;> simp_all [isSignedIntType, encodeCell, Value.isNull, Value.getInt64]
    exact ⟨he, by rw [he, parseInt_intToDecimal]⟩

/-- Witness for C7 at the top of the unsigned 64-bit range and at a negative
signed value. -/
theorem integer_rendering_exact_witness :
    isUnsignedIntType .ubigint = true
    ∧ (18446744073709551615 : Nat) < 2 ^ 64
    ∧ parseNat (encodeCell .ubigint (Value.uintv 18446744073709551615))
        = some 18446744073709551615
    ∧ encodeCell .ubigint (Value.uintv 18446744073709551615) = "18446744073709551615"
    ∧ isSignedIntType .bigint = true
    ∧ parseInt (encodeCell .bigint (Value.intv (-42))) = some (-42) :=
  ⟨rfl, by norm_num,
    (integer_rendering_exact.1 .ubigint rfl 18446744073709551615 (by norm_num)).2,
    by decide,
    rfl,
    (integer_rendering_exact.2 .bigint rfl (-42) (by norm_num) (by norm_num)).2⟩

/-- C3: the text-literal encoder escapes the eight JSON control-sequence
characters and every other control byte in `0x00`-`0x1F` (named or 4-hex-digit
escapes), passes every other byte through unchanged, and standard JSON string
decoding of the encoded literal recovers the original bytes exactly,
including bytes `≥ 0x80`. -/
theorem escapeJsonString_roundtrip :
    (∀ s : List Nat, (∀ b ∈ s, b < 256) →
        decodeJsonString (escapeJsonString s) = some s)
    ∧ (∀ c : Nat, 32 ≤ c → c ≠ 34 → c ≠ 92 → escapeByte c = [c]) := by
  constructor
  · intro s hs
    show decodeJsonString (34 :: (s.map escapeByte).flatten ++ [34]) = some s
    rw [decodeJsonString.eq_def]
    exact decodeBody_escaped s hs
  · intro c h32 h34 h92
    unfold escapeByte
    rw [if_neg h34, if_neg h92, if_neg (by omega), if_neg (by omega), if_neg (by omega),
      if_neg (by omega), if_neg (by omega), if_neg (by omega)]

/-- Witness for C3 on the spec's example text with all eight escapes, an
extra control byte and a byte `≥ 0x80`
(`line1\nline2\ttab"quote` followed by `\ \b \f \r 0x01 0xC8`). -/
theorem escapeJsonString_roundtrip_witness :
    (∀ b ∈ [108, 105, 110, 101, 49, 10, 108, 105, 110, 101, 50, 9, 116, 97, 98,
        34, 113, 117, 111, 116, 101, 92, 8, 12, 13, 1, 200], b < 256)
    ∧ decodeJsonString (escapeJsonString
        [108, 105, 110, 101, 49, 10, 108, 105, 110, 101, 50, 9, 116, 97, 98,
         34, 113, 117, 111, 116, 101, 92, 8, 12, 13, 1, 200])
      = some [108, 105, 110, 101, 49, 10, 108, 105, 110, 101, 50, 9, 116, 97, 98,
              34, 113, 117, 111, 116, 101, 92, 8, 12, 13, 1, 200] :=
  ⟨by decide, escapeJsonString_roundtrip.1 _ (by decide)⟩

theorem resizeVec_length (l : List Value) (n : Nat) : (resizeVec l n).length = n := by
  unfold resizeVec
  split
  · rename_i h; rw [List.length_take]; omega
  · rename_i h; rw [List.length_append, List.length_replicate]; omega

theorem bindWrite_length (b : List Value) (idx : Nat) (v : Value) :
    (bindWrite b idx v).length = max b.length (idx + 1) := by
  unfold bindWrite
  rw [List.length_set]
  split
  · rename_i h; rw [resizeVec_length]; omega
  · rename_i h; omega

theorem bindWrite_get_self (b : List Value) (idx : Nat) (v : Value) :
    (bindWrite b idx v)[idx]? = some v := by
  unfold bindWrite
  rw [List.getElem?_set, if_pos rfl]
  have hlen : idx < (if (b.length : Int) ≤ (idx : Int)
      then resizeVec b (idx + 1) else b).length := by
    split
    · rw [resizeVec_length]; omega
    · rename_i h; omega
  rw [if_pos hlen]

theorem bindWrite_get_other (b : List Value) (idx : Nat) (v : Value) (j : Nat)
    (hj : j ≠ idx) :
    (bindWrite b idx v)[j]?
      = if j < b.length then b[j]?
        else if j < idx + 1 then some Value.null else none := by
  unfold bindWrite
  rw [List.getElem?_set_ne (Ne.symm hj)]
  split
  · rename_i h
    unfold resizeVec
    rw [if_neg (by omega), List.getElem?_append]
    by_cases hjb : j < b.length
    · rw [if_pos hjb, if_pos hjb]
    · rw [if_neg hjb, if_neg hjb, List.getElem?_replicate]
      by_cases hj2 : j < idx + 1
      · rw [if_pos (by omega), if_pos hj2]
      · rw [if_neg (by omega), if_neg hj2]
  · rename_i h
    by_cases hjb : j < b.length
    · rw [if_pos hjb]
    · rw [if_neg hjb, if_neg (by omega), List.getElem?_eq_none (by omega)]

theorem wrap32_of_range (x : Int) (h1 : -(2 ^ 31) ≤ x) (h2 : x < 2 ^ 31) : wrap32 x = x := by
  unfold wrap32
  omega

theorem applyBindIos_eq (b : List Value) (index : Int) (op : BindOp)
    (h : 1 ≤ index) :
    applyBindIos (some b) index op
      = (true, some (bindWrite b (index - 1).toNat (bindOpValue op))) := by
  have hnat : (((index - 1).toNat : Int)) = index - 1 := Int.toNat_of_nonneg (by omega)
  have hcond : ((b.length : Int) ≤ index - 1) ↔ (b.length ≤ index.toNat - 1) := by omega
  have hlt : ¬ index < 1 := by omega
  cases op with
  | bstr s =>
    cases s <;>
      simp [applyBindIos, duckdb_ios_bind_string, bindOpValue, bindWrite, hnat, hcond, hlt]
  | bint i =>
    simp [applyBindIos, duckdb_ios_bind_int64, bindOpValue, bindWrite, hnat, hcond, hlt]
  | bdouble d =>
    simp [applyBindIos, duckdb_ios_bind_double, bindOpValue, bindWrite, hnat, hcond, hlt]
  | bbool bv =>
    simp [applyBindIos, duckdb_ios_bind_bool, bindOpValue, bindWrite, hnat, hcond, hlt]
  | bnull =>
    simp [applyBindIos, duckdb_ios_bind_null, bindOpValue, bindWrite, hnat, hcond, hlt]

theorem applyBindJNI_eq (b : List Value) (index : Int) (op : BindOp)
    (h1 : 1 ≤ index) (h2 : index < 2 ^ 31) (hb : b.length < 2 ^ 31) :
    applyBindJNI (some b) index op
      = (true, some (bindWrite b (index - 1).toNat (bindOpValue op))) := by
  have hw : wrap32 (index - 1) = index - 1 := wrap32_of_range _ (by omega) (by omega)
  have hwlen : wrap32 ((b.length : Int)) = (b.length : Int) :=
    wrap32_of_range _ (by omega) (by omega)
  have hnat : (((index - 1).toNat : Int)) = index - 1 := Int.toNat_of_nonneg (by omega)
  have hcond : ((b.length : Int) ≤ index - 1) ↔ (b.length ≤ index.toNat - 1) := by omega
  have hlt : ¬ index < 1 := by omega
  have hlt0 : ¬ (index - 1) < 0 := by omega
  cases op with
  | bstr s =>
    cases s <;>
      simp [applyBindJNI, Java_ph_com_regalado_capacitor_duckdb_DuckDBNative_bindString,
        bindOpValue, bindWrite, hw, hwlen, hnat, hcond, hlt, hlt0]
  | bint i =>
    simp [applyBindJNI, Java_ph_com_regalado_capacitor_duckdb_DuckDBNative_bindLong,
      bindOpValue, bindWrite, hw, hwlen, hnat, hcond, hlt, hlt0]
  | bdouble d =>
    simp [applyBindJNI, Java_ph_com_regalado_capacitor_duckdb_DuckDBNative_bindDouble,
      bindOpValue, bindWrite, hw, hwlen, hnat, hcond, hlt, hlt0]
  | bbool bv =>
    simp [applyBindJNI, Java_ph_com_regalado_capacitor_duckdb_DuckDBNative_bindBoolean,
      bindOpValue, bindWrite, hw, hwlen, hnat, hcond, hlt, hlt0]
  | bnull =>
    simp [applyBindJNI, Java_ph_com_regalado_capacitor_duckdb_DuckDBNative_bindNull,
      bindOpValue, bindWrite, hw, hwlen, hnat, hcond, hlt, hlt0]

/-- C2 (amended): on both platforms, every bind operation at 1-based index
`1 ≤ i < 2^31` on a live statement whose store holds fewer than `2^31` slots
— every store size reachable without the C6 `INT_MIN` overflow — succeeds;
the store becomes `bindWrite`, whose size is `max old_size i` (growth to
exactly `i` when `i` exceeds the old size), slot `i` holds the bound value
(unconditionally overwritten), newly created slots below `i` hold the null
variant, and every other existing slot is unchanged.  At an Android store of
`2^31` slots the claim as stated fails: the guard's `(int)size()` is
negative there and the bind truncates the store (see
`bindLong_shrinks_large_store`). -/
theorem bind_grow_overwrite (b : List Value) (index : Int) (op : BindOp)
    (h1 : 1 ≤ index) (h2 : index < 2 ^ 31) (hb : b.length < 2 ^ 31) :
    applyBindIos (some b) index op
        = (true, some (bindWrite b (index - 1).toNat (bindOpValue op)))
    ∧ applyBindJNI (some b) index op
        = (true, some (bindWrite b (index - 1).toNat (bindOpValue op)))
    ∧ (bindWrite b (index - 1).toNat (bindOpValue op)).length = max b.length index.toNat
    ∧ (bindWrite b (index - 1).toNat (bindOpValue op))[(index - 1).toNat]?
        = some (bindOpValue op)
    ∧ ∀ j, j ≠ (index - 1).toNat →
        (bindWrite b (index - 1).toNat (bindOpValue op))[j]?
          = if j < b.length then b[j]?
            else if j < index.toNat then some Value.null else none := by
  have hmax : (index - 1).toNat + 1 = index.toNat := by omega
  exact ⟨applyBindIos_eq b index op h1, applyBindJNI_eq b index op h1 h2 hb,
    by rw [bindWrite_length, hmax],
    bindWrite_get_self _ _ _,
    fun j hj => by rw [bindWrite_get_other _ _ _ _ hj, hmax]⟩

/-- Witness for C2: binding at index 5 on a fresh store of size 0. -/
theorem bind_grow_overwrite_witness :
    applyBindIos (some ([] : List Value)) 5 BindOp.bnull
        = (true, some (bindWrite [] ((5 : Int) - 1).toNat (bindOpValue BindOp.bnull)))
    ∧ (bindWrite ([] : List Value) ((5 : Int) - 1).toNat (bindOpValue BindOp.bnull)).length
        = max ([] : List Value).length (5 : Int).toNat :=
  ⟨(bind_grow_overwrite [] 5 BindOp.bnull (by norm_num) (by norm_num) (by decide)).1,
    (bind_grow_overwrite [] 5 BindOp.bnull (by norm_num) (by norm_num) (by decide)).2.2.1⟩

theorem applyBindIos_cases (b : List Value) (index : Int) (op : BindOp) :
    applyBindIos (some b) index op = (false, some b)
    ∨ ∃ idx : Nat, applyBindIos (some b) index op
        = (true, some (bindWrite b idx (bindOpValue op))) := by
  by_cases hidx : index < 1
  · left
    cases op with
    | bstr s => cases s <;> simp [applyBindIos, duckdb_ios_bind_string, if_pos hidx]
    | bint i => simp [applyBindIos, duckdb_ios_bind_int64, if_pos hidx]
    | bdouble d => simp [applyBindIos, duckdb_ios_bind_double, if_pos hidx]
    | bbool bv => simp [applyBindIos, duckdb_ios_bind_bool, if_pos hidx]
    | bnull => simp [applyBindIos, duckdb_ios_bind_null, if_pos hidx]
  · right
    exact ⟨(index - 1).toNat, applyBindIos_eq b index op (by omega)⟩

theorem applyBindJNI_fail (b : List Value) (index : Int) (op : BindOp)
    (hneg : wrap32 (index - 1) < 0) :
    applyBindJNI (some b) index op = (false, some b) := by
  cases op with
  | bstr s =>
    cases s <;>
      simp [applyBindJNI, Java_ph_com_regalado_capacitor_duckdb_DuckDBNative_bindString,
        if_pos hneg]
  | bint i =>
    simp [applyBindJNI, Java_ph_com_regalado_capacitor_duckdb_DuckDBNative_bindLong,
      if_pos hneg]
  | bdouble d =>
    simp [applyBindJNI, Java_ph_com_regalado_capacitor_duckdb_DuckDBNative_bindDouble,
      if_pos hneg]
  | bbool bv =>
    simp [applyBindJNI, Java_ph_com_regalado_capacitor_duckdb_DuckDBNative_bindBoolean,
      if_pos hneg]
  | bnull =>
    simp [applyBindJNI, Java_ph_com_regalado_capacitor_duckdb_DuckDBNative_bindNull,
      if_pos hneg]

theorem stepIos_length_mono (b : List Value) (k : StoreOp) :
    b.length ≤ (stepIos b k).length := by
  cases k with
  | obind index op =>
    rcases applyBindIos_cases b index op with hca | ⟨idx, hca⟩
    · simp [stepIos, hca]
    · simp [stepIos, hca, bindWrite_length]
  | oclear => simp [stepIos, duckdb_ios_clear_bindings]
  | oexec => simp [stepIos]

theorem foldl_stepIos_mono (ops : List StoreOp) :
    ∀ b : List Value, b.length ≤ (ops.foldl stepIos b).length := by
  induction ops with
  | nil => intro b; simp
  | cons k ks ih =>
    intro b
    exact le_trans (stepIos_length_mono b k) (ih (stepIos b k))

theorem stepJNI_mono_safe (b : List Value) (k : StoreOp)
    (hb : b.length < 2 ^ 31) (hk : opIndexInRange k = true) :
    b.length ≤ (stepJNI b k).length ∧ (stepJNI b k).length < 2 ^ 31 := by
  cases k with
  | obind index op =>
    have hrange : -(2 ^ 31) < index ∧ index < 2 ^ 31 := by
      simpa [opIndexInRange] using hk
    by_cases hi : index < 1
    · have hneg : wrap32 (index - 1) < 0 := by
        rw [wrap32_of_range (index - 1) (by omega) (by omega)]
        omega
      have he := applyBindJNI_fail b index op hneg
      refine ⟨by simp [stepJNI, he], ?_⟩
      simpa [stepJNI, he] using hb
    · have he := applyBindJNI_eq b index op (by omega) (by omega) hb
      refine ⟨by simp [stepJNI, he, bindWrite_length], ?_⟩
      simp only [stepJNI, he]
      rw [bindWrite_length]
      omega
  | oclear =>
    refine ⟨by simp [stepJNI, Java_ph_com_regalado_capacitor_duckdb_DuckDBNative_clearBindings], ?_⟩
    simpa [stepJNI, Java_ph_com_regalado_capacitor_duckdb_DuckDBNative_clearBindings]
      using hb
  | oexec => exact ⟨le_refl _, hb⟩

theorem foldl_stepJNI_mono_safe (ops : List StoreOp) :
    ∀ b : List Value, b.length < 2 ^ 31 → (∀ k ∈ ops, opIndexInRange k = true) →
      b.length ≤ (ops.foldl stepJNI b).length := by
  induction ops with
  | nil => intro b _ _; simp
  | cons k ks ih =>
    intro b hb hall
    have hstep := stepJNI_mono_safe b k hb (hall k (List.mem_cons_self _ _))
    exact le_trans hstep.1
      (ih (stepJNI b k) hstep.2 (fun x hx => hall x (List.mem_cons_of_mem _ hx)))

/-- C5 (amended): on both platforms `clear` resets every held slot to the
null variant without changing the store's size; the iOS store size never
decreases across any operation sequence; and the Android store size never
decreases across any sequence whose bind indexes exclude `INT_MIN` (the C6
index-conversion overflow), starting from any store below `2^31` slots —
the domain of every overflow-free execution.  After an `INT_MIN` bind the
Android store reaches `2^31` slots, where the guard's `(int)size()` is
negative and the next small-index bind shrinks it (see
`size_decreases_after_intmin_bind`). -/
theorem clear_resets_and_size_monotone :
    (∀ b : List Value,
        duckdb_ios_clear_bindings (some b) = some (List.replicate b.length Value.null))
    ∧ (∀ b : List Value,
        Java_ph_com_regalado_capacitor_duckdb_DuckDBNative_clearBindings (some b)
          = (true, some (List.replicate b.length Value.null)))
    ∧ (∀ (b : List Value) (ops : List StoreOp), b.length ≤ (ops.foldl stepIos b).length)
    ∧ (∀ (b : List Value) (ops : List StoreOp), b.length < 2 ^ 31 →
        (∀ k ∈ ops, opIndexInRange k = true) →
        b.length ≤ (ops.foldl stepJNI b).length) :=
  ⟨fun b => by simp [duckdb_ios_clear_bindings, List.map_const'],
    fun b => by
      simp [Java_ph_com_regalado_capacitor_duckdb_DuckDBNative_clearBindings,
        List.map_const'],
    fun b ops => foldl_stepIos_mono ops b,
    fun b ops hb hall => foldl_stepJNI_mono_safe ops b hb hall⟩

/-- Witness for C5 on a one-slot store and a bind/clear/execute sequence with
in-range indexes. -/
theorem clear_resets_and_size_monotone_witness :
    ([Value.intv 1] : List Value).length < 2 ^ 31
    ∧ (∀ k ∈ [StoreOp.obind 3 BindOp.bnull, StoreOp.oclear, StoreOp.oexec],
        opIndexInRange k = true)
    ∧ ([Value.intv 1] : List Value).length
        ≤ ([StoreOp.obind 3 BindOp.bnull, StoreOp.oclear, StoreOp.oexec].foldl
            stepJNI [Value.intv 1]).length :=
  ⟨by decide, by decide,
    clear_resets_and_size_monotone.2.2.2 [Value.intv 1]
      [StoreOp.obind 3 BindOp.bnull, StoreOp.oclear, StoreOp.oexec]
      (by decide) (by decide)⟩

theorem bindLong_intmin_eval :
    Java_ph_com_regalado_capacitor_duckdb_DuckDBNative_bindLong
        (some []) (-2147483648) 7
      = (true, some (bindWrite [] 2147483647 (Value.intv 7))) := by
  have hw : wrap32 (-2147483649 : Int) = 2147483647 := by
    unfold wrap32
    decide
  have hw0 : wrap32 (0 : Int) = 0 := by
    unfold wrap32
    decide
  have hcast : ((2147483647 : Int)).toNat = 2147483647 := rfl
  simp [Java_ph_com_regalado_capacitor_duckdb_DuckDBNative_bindLong, hw, hw0, hcast,
    bindWrite]

/-- Helper: a bind at index 1 on a store of exactly `2^31` slots, where the
Android guard's `(int)size()` has wrapped negative, truncates the store to
one slot before writing. -/
theorem bindLong_on_wrapped_store (b : List Value) (hb : b.length = 2147483648)
    (v : Int) :
    Java_ph_com_regalado_capacitor_duckdb_DuckDBNative_bindLong (some b) 1 v
        = (true, some ((b.take 1).set 0 (Value.intv v)))
    ∧ ((b.take 1).set 0 (Value.intv v)).length = 1 := by
  have hw0 : wrap32 (0 : Int) = 0 := by
    unfold wrap32
    decide
  have hwlen : wrap32 (2147483648 : Int) = -2147483648 := by
    unfold wrap32
    decide
  constructor
  · simp [Java_ph_com_regalado_capacitor_duckdb_DuckDBNative_bindLong, hw0, hwlen,
      resizeVec, hb]
  · rw [List.length_set, List.length_take, hb]
    omega

/-- C6 evaluation at the failing input: the Android `bindLong` called with
`index = -2147483648` (`INT_MIN`, a value any caller can pass) wraps the
0-based conversion `int idx = index - 1` to `2147483647`, slips past the
`idx < 0` check, reports success and grows the store to `2^31` slots —
instead of failing with the store unmodified as the claim (and the code's
own "must be >= 1" error path) requires.  The iOS bridge checks `index < 1`
before converting and is not affected. -/
theorem bindLong_intmin_bypasses_check :
    (Java_ph_com_regalado_capacitor_duckdb_DuckDBNative_bindLong
        (some []) (-2147483648) 7).1 = true
    ∧ (Java_ph_com_regalado_capacitor_duckdb_DuckDBNative_bindLong
        (some []) (-2147483648) 7).2
        = some (bindWrite [] 2147483647 (Value.intv 7))
    ∧ (bindWrite ([] : List Value) 2147483647 (Value.intv 7)).length = 2 ^ 31 := by
  refine ⟨?_, ?_, ?_⟩
  · rw [bindLong_intmin_eval]
  · rw [bindLong_intmin_eval]
  · rw [bindWrite_length]
    norm_num

/-- Counterexample for C2 as stated: on the Android bridge, a bind at index 1
on a store of `2^31` slots (reachable per `bindLong_intmin_bypasses_check`)
reports success but resizes the store down to one slot — the guard compares
`idx` against `(int)size()`, which has wrapped to `INT_MIN` — so the size is
not `max old_size 1` and the slots below the old size are destroyed rather
than unchanged (slot 6, null beforehand, no longer exists). -/
theorem bindLong_shrinks_large_store :
    ((Java_ph_com_regalado_capacitor_duckdb_DuckDBNative_bindLong
        (some (List.replicate 2147483648 Value.null)) 1 7).2.getD []).length = 1
    ∧ (List.replicate 2147483648 Value.null).length = 2147483648
    ∧ ((Java_ph_com_regalado_capacitor_duckdb_DuckDBNative_bindLong
        (some (List.replicate 2147483648 Value.null)) 1 7).2.getD [])[5]? = none
    ∧ (List.replicate 2147483648 Value.null)[5]? = some Value.null := by
  have hb : (List.replicate 2147483648 Value.null).length = 2147483648 :=
    List.length_replicate _ _
  have he := bindLong_on_wrapped_store (List.replicate 2147483648 Value.null) hb 7
  refine ⟨?_, hb, ?_, ?_⟩
  · rw [he.1]
    exact he.2
  · have h5 : (((List.replicate 2147483648 Value.null).take 1).set 0
        (Value.intv 7)).length ≤ 5 := by
      rw [he.2]
      omega
    rw [he.1]
    exact List.getElem?_eq_none h5
  · rw [List.getElem?_replicate]
    norm_num

/-- Counterexample for C5 as stated: the Android operation sequence "bind at
`INT_MIN`, then bind at index 1" takes the store size `0 → 2^31 → 1`; the
size strictly decreases between consecutive prefixes of the sequence. -/
theorem size_decreases_after_intmin_bind :
    ([StoreOp.obind (-2147483648) (BindOp.bint 7)].foldl stepJNI []).length = 2147483648
    ∧ ([StoreOp.obind (-2147483648) (BindOp.bint 7),
        StoreOp.obind 1 (BindOp.bint 7)].foldl stepJNI []).length = 1
    ∧ ([StoreOp.obind (-2147483648) (BindOp.bint 7),
        StoreOp.obind 1 (BindOp.bint 7)].foldl stepJNI []).length
      < ([StoreOp.obind (-2147483648) (BindOp.bint 7)].foldl stepJNI []).length := by
  have h1 : stepJNI [] (StoreOp.obind (-2147483648) (BindOp.bint 7))
      = bindWrite [] 2147483647 (Value.intv 7) := by
    simp [stepJNI, applyBindJNI, bindLong_intmin_eval]
  have hlen1 : (bindWrite ([] : List Value) 2147483647 (Value.intv 7)).length
      = 2147483648 := by
    rw [bindWrite_length]
    norm_num
  have h2 := bindLong_on_wrapped_store (bindWrite [] 2147483647 (Value.intv 7)) hlen1 7
  have hs : (applyBindJNI (some (bindWrite [] 2147483647 (Value.intv 7))) 1
        (BindOp.bint 7)).2
      = some (((bindWrite [] 2147483647 (Value.intv 7)).take 1).set 0 (Value.intv 7)) := by
    show (Java_ph_com_regalado_capacitor_duckdb_DuckDBNative_bindLong
        (some (bindWrite [] 2147483647 (Value.intv 7))) 1 7).2
      = some (((bindWrite [] 2147483647 (Value.intv 7)).take 1).set 0 (Value.intv 7))
    rw [h2.1]
  have hstep : stepJNI (bindWrite [] 2147483647 (Value.intv 7))
      (StoreOp.obind 1 (BindOp.bint 7))
      = ((bindWrite [] 2147483647 (Value.intv 7)).take 1).set 0 (Value.intv 7) := by
    show (fun x => match x with
        | some b1 => b1
        | none => bindWrite [] 2147483647 (Value.intv 7))
        ((applyBindJNI (some (bindWrite [] 2147483647 (Value.intv 7))) 1
          (BindOp.bint 7)).2)
      = ((bindWrite [] 2147483647 (Value.intv 7)).take 1).set 0 (Value.intv 7)
    rw [hs]
  have hfold1 : [StoreOp.obind (-2147483648) (BindOp.bint 7)].foldl stepJNI []
      = stepJNI [] (StoreOp.obind (-2147483648) (BindOp.bint 7)) := by
    rw [List.foldl_cons, List.foldl_nil]
  have hfold2 : [StoreOp.obind (-2147483648) (BindOp.bint 7),
      StoreOp.obind 1 (BindOp.bint 7)].foldl stepJNI []
      = stepJNI (stepJNI [] (StoreOp.obind (-2147483648) (BindOp.bint 7)))
          (StoreOp.obind 1 (BindOp.bint 7)) := by
    rw [List.foldl_cons, List.foldl_cons, List.foldl_nil]
  have hA : ([StoreOp.obind (-2147483648) (BindOp.bint 7)].foldl stepJNI []).length
      = 2147483648 :=
    (congrArg List.length (hfold1.trans h1)).trans hlen1
  have hchain : [StoreOp.obind (-2147483648) (BindOp.bint 7),
      StoreOp.obind 1 (BindOp.bint 7)].foldl stepJNI []
      = ((bindWrite [] 2147483647 (Value.intv 7)).take 1).set 0 (Value.intv 7) :=
    hfold2.trans
      ((congrArg (fun x => stepJNI x (StoreOp.obind 1 (BindOp.bint 7))) h1).trans hstep)
  have hB : ([StoreOp.obind (-2147483648) (BindOp.bint 7),
      StoreOp.obind 1 (BindOp.bint 7)].foldl stepJNI []).length = 1 :=
    (congrArg List.length hchain).trans h2.2
  exact ⟨hA, hB, by rw [hA, hB]; norm_num⟩

/-- C10: binding a null/absent string at index `i ≥ 1` succeeds and has
exactly the effect of bind-null at the same index, on both platforms (the
two entry points share the identical code path once the null-string branch
is taken, at every store). -/
theorem bindString_null_equals_bindNull (b : List Value) (index : Int)
    (h1 : 1 ≤ index) (h2 : index < 2 ^ 31) :
    duckdb_ios_bind_string (some b) index none = duckdb_ios_bind_null (some b) index
    ∧ (duckdb_ios_bind_string (some b) index none).1 = true
    ∧ Java_ph_com_regalado_capacitor_duckdb_DuckDBNative_bindString (some b) index none
        = Java_ph_com_regalado_capacitor_duckdb_DuckDBNative_bindNull (some b) index
    ∧ (Java_ph_com_regalado_capacitor_duckdb_DuckDBNative_bindString
        (some b) index none).1 = true := by
  have hw : wrap32 (index - 1) = index - 1 := wrap32_of_range _ (by omega) (by omega)
  have hneg : ¬ wrap32 (index - 1) < 0 := by
    rw [hw]
    omega
  have hlt : ¬ index < 1 := by omega
  refine ⟨rfl, ?_, rfl, ?_⟩
  · simp [duckdb_ios_bind_string, hlt]
  · simp [Java_ph_com_regalado_capacitor_duckdb_DuckDBNative_bindString, hneg]

/-- Witness for C10 at index 2 on a one-slot store. -/
theorem bindString_null_equals_bindNull_witness :
    duckdb_ios_bind_string (some [Value.intv 9]) 2 none
        = duckdb_ios_bind_null (some [Value.intv 9]) 2
    ∧ Java_ph_com_regalado_capacitor_duckdb_DuckDBNative_bindString
          (some [Value.intv 9]) 2 none
        = Java_ph_com_regalado_capacitor_duckdb_DuckDBNative_bindNull
          (some [Value.intv 9]) 2 :=
  ⟨(bindString_null_equals_bindNull [Value.intv 9] 2 (by norm_num) (by norm_num)).1,
    (bindString_null_equals_bindNull [Value.intv 9] 2 (by norm_num) (by norm_num)).2.2.1⟩

/-- C4: when the result object of a query or prepared-statement execution
carries an engine-reported error, no serialization happens and zero rows are
emitted — the string-return convention yields exactly `"ERROR:" ++ message`
(verbatim pass-through) and the out-parameter convention yields a null
payload with `error_out` set to the verbatim message; a successful call
yields the serialized payload with no error on either convention. -/
theorem engine_error_channel :
    (∀ (s m : String) (names : List String) (types : List LogicalTypeId)
        (rows : List Row),
      Java_ph_com_regalado_capacitor_duckdb_DuckDBNative_query (some ()) (some s)
          (.returns ⟨some m, names, types, rows⟩) = "ERROR:" ++ m)
    ∧ (∀ (s : String) (names : List String) (types : List LogicalTypeId)
        (rows : List Row),
      Java_ph_com_regalado_capacitor_duckdb_DuckDBNative_query (some ()) (some s)
          (.returns ⟨none, names, types, rows⟩) = resultToJson names types rows)
    ∧ (∀ (s m : String) (names : List String) (types : List LogicalTypeId)
        (chunks : List (List Row)),
      duckdb_ios_query (some ()) (some s) (.returns ⟨some m, names, types, chunks⟩)
        = (none, some m))
    ∧ (∀ (s : String) (names : List String) (types : List LogicalTypeId)
        (chunks : List (List Row)),
      duckdb_ios_query (some ()) (some s) (.returns ⟨none, names, types, chunks⟩)
        = (some (queryResultToJson names types chunks), none))
    ∧ (∀ (b : List Value) (m : String) (names : List String)
        (types : List LogicalTypeId) (chunks : List (List Row)),
      Java_ph_com_regalado_capacitor_duckdb_DuckDBNative_executePrepared (some b)
          (fun _ => .returns ⟨some m, names, types, chunks⟩) = "ERROR:" ++ m)
    ∧ (∀ (b : List Value) (names : List String) (types : List LogicalTypeId)
        (chunks : List (List Row)),
      Java_ph_com_regalado_capacitor_duckdb_DuckDBNative_executePrepared (some b)
          (fun _ => .returns ⟨none, names, types, chunks⟩)
        = queryResultToJson names types chunks)
    ∧ (∀ (b : List Value) (m : String) (names : List String)
        (types : List LogicalTypeId) (chunks : List (List Row)),
      duckdb_ios_execute_prepared (some b)
          (fun _ => .returns ⟨some m, names, types, chunks⟩) = (none, some m))
    ∧ (∀ (b : List Value) (names : List String) (types : List LogicalTypeId)
        (chunks : List (List Row)),
      duckdb_ios_execute_prepared (some b)
          (fun _ => .returns ⟨none, names, types, chunks⟩)
        = (some (queryResultToJson names types chunks), none)) :=
  ⟨fun _ _ _ _ _ => rfl, fun _ _ _ _ => rfl, fun _ _ _ _ _ => rfl, fun _ _ _ _ => rfl,
    fun _ _ _ _ _ => rfl, fun _ _ _ _ => rfl, fun _ _ _ _ _ => rfl, fun _ _ _ _ => rfl⟩

/-- C8: every handle-taking entry point invoked with the null/zero handle
fails locally with its error sentinel (or the defensive no-op for the
destroy operations, whose returned flag records that `delete` was not
reached), independently of whatever the engine would have answered — the
engine-response argument is universally quantified and unused. -/
theorem null_handle_rejected_locally :
    (∀ (sql : Option String) (call : EngineCall MatResult),
      Java_ph_com_regalado_capacitor_duckdb_DuckDBNative_query none sql call
        = "ERROR:Invalid connection handle")
    ∧ (∀ (sql : Option String) (call : EngineCall ExecResult),
      Java_ph_com_regalado_capacitor_duckdb_DuckDBNative_execute none sql call
        = "ERROR:Invalid connection handle")
    ∧ (∀ (sql : Option String) (call : EngineCall PrepResult),
      Java_ph_com_regalado_capacitor_duckdb_DuckDBNative_prepare none sql call = none)
    ∧ Java_ph_com_regalado_capacitor_duckdb_DuckDBNative_destroyPrepared none = false
    ∧ (∀ (index : Int) (op : BindOp), applyBindJNI none index op = (false, none))
    ∧ (∀ engine : List Value → EngineCall StreamResult,
      Java_ph_com_regalado_capacitor_duckdb_DuckDBNative_executePrepared none engine
        = "ERROR:Invalid statement handle")
    ∧ Java_ph_com_regalado_capacitor_duckdb_DuckDBNative_clearBindings none
        = (false, none)
    ∧ (∀ call : EngineCall Unit,
      Java_ph_com_regalado_capacitor_duckdb_DuckDBNative_connect none call = none)
    ∧ Java_ph_com_regalado_capacitor_duckdb_DuckDBNative_disconnect none = false
    ∧ Java_ph_com_regalado_capacitor_duckdb_DuckDBNative_closeDatabase none = false
    ∧ (∀ call : EngineCall Unit,
      duckdb_ios_connect none call = (none, some "Invalid database handle"))
    ∧ duckdb_ios_disconnect none = false
    ∧ duckdb_ios_close_database none = false
    ∧ (∀ (sql : Option String) (call : EngineCall StreamResult),
      duckdb_ios_query none sql call = (none, some "Invalid connection"))
    ∧ (∀ (sql : Option String) (call : EngineCall ExecResult),
      duckdb_ios_execute none sql call = (false, none, some "Invalid connection"))
    ∧ (∀ (sql : Option String) (call : EngineCall PrepResult),
      duckdb_ios_prepare none sql call = (none, some "Invalid connection"))
    ∧ duckdb_ios_destroy_prepared none = false
    ∧ (∀ (index : Int) (op : BindOp), applyBindIos none index op = (false, none))
    ∧ duckdb_ios_clear_bindings none = none
    ∧ (∀ engine : List Value → EngineCall StreamResult,
      duckdb_ios_execute_prepared none engine = (none, some "Invalid statement handle"))
    ∧ duckdb_ios_has_spatial_extension none = false :=
  ⟨fun _ _ => rfl, fun _ _ => rfl, fun _ _ => rfl, rfl,
    fun _ op => by cases op <;> rfl,
    fun _ => rfl, rfl, fun _ => rfl, rfl, rfl,
    fun _ => rfl, rfl, rfl, fun _ _ => rfl, fun _ _ => rfl, fun _ _ => rfl, rfl,
    fun _ op => by cases op <;> rfl,
    rfl, fun _ => rfl, rfl⟩

theorem resizeVec_nil (n : Nat) : resizeVec [] n = List.replicate n Value.null := by
  unfold resizeVec
  split
  · rename_i h
    have : n = 0 := by simpa using h
    subst this
    rfl
  · simp

/-- C9: a successful prepare creates a binding store of exactly the
statement's declared parameter count (`named_param_map.size()`) with every
slot holding the null variant, so an immediate execute passes exactly that
many nulls to the engine. -/
theorem prepare_initial_bindings :
    (∀ (s : String) (n : Nat),
      Java_ph_com_regalado_capacitor_duckdb_DuckDBNative_prepare (some ()) (some s)
          (.returns ⟨none, n⟩) = some (List.replicate n Value.null))
    ∧ (∀ (s : String) (n : Nat),
      duckdb_ios_prepare (some ()) (some s) (.returns ⟨none, n⟩)
        = (some (List.replicate n Value.null), none))
    ∧ (∀ (s : String) (n : Nat),
      ((duckdb_ios_prepare (some ()) (some s) (.returns ⟨none, n⟩)).1.getD []).length
        = n)
    ∧ (∀ (n : Nat) (engine : List Value → EngineCall StreamResult),
      duckdb_ios_execute_prepared (some (List.replicate n Value.null)) engine
        = duckdb_ios_execute_prepared (some (List.replicate n Value.null))
            (fun _ => engine (List.replicate n Value.null))) :=
  ⟨fun s n => by
      simp [Java_ph_com_regalado_capacitor_duckdb_DuckDBNative_prepare, resizeVec_nil],
    fun s n => by simp [duckdb_ios_prepare, resizeVec_nil],
    fun s n => by simp [duckdb_ios_prepare, resizeVec_nil],
    fun n engine => rfl⟩
